import Mathlib

/-!
Shallow embedding of `detailer` (src/src/detailer.rs): a buffered,
level-filtered trace logger with scope-guard-managed indentation.

State and operations are translated from the Rust source.  The monotonic
clock is externalised: each call that would read `Instant::elapsed` takes
the elapsed-microseconds reading (a `u64` value, modelled as `Nat`) as an
explicit argument, and the `start : Option<Instant>` field is modelled by
the `Bool` recording its presence.  Sequential `write_fmt`/`write_str`
calls into the accumulated `String` are modelled as appending the
concatenation of the written pieces.
-/

/-- `log::Level` of the log crate: Error < Warn < Info < Debug < Trace,
with usize representations 1..5. -/
inductive Level
  | Error
  | Warn
  | Info
  | Debug
  | Trace
deriving DecidableEq, Repr

/-- The usize representation the log crate compares levels by. -/
def Level.toNat : Level → Nat
  | .Error => 1
  | .Warn => 2
  | .Info => 3
  | .Debug => 4
  | .Trace => 5

/-- `log::LevelFilter`: Off < Error < Warn < Info < Debug < Trace,
with usize representations 0..5. -/
inductive LevelFilter
  | Off
  | Error
  | Warn
  | Info
  | Debug
  | Trace
deriving DecidableEq, Repr

/-- The usize representation the log crate compares filters by. -/
def LevelFilter.toNat : LevelFilter → Nat
  | .Off => 0
  | .Error => 1
  | .Warn => 2
  | .Info => 3
  | .Debug => 4
  | .Trace => 5

/-- `log::LevelFilter::to_level`: the corresponding `Level`, `none` for Off. -/
def LevelFilter.toLevel : LevelFilter → Option Level
  | .Off => none
  | .Error => some .Error
  | .Warn => some .Warn
  | .Info => some .Info
  | .Debug => some .Debug
  | .Trace => some .Trace

/-- The filter test `level <= self.level` of `Detailer::log`: the log crate
compares a `Level` with a `LevelFilter` by their usize representations. -/
def levelPasses (l : Level) (f : LevelFilter) : Bool := l.toNat ≤ f.toNat

/-- Pad a string on the right with spaces to a minimum width of 6
characters, as Rust left-justified width-6 formatting does. -/
def padTo6 (s : String) : String := s ++ String.mk (List.replicate (6 - s.length) ' ')

/-- The timestamp text written for an elapsed-microseconds reading: the
decimal rendering, left-justified in a minimum-width-6 space-padded field,
followed by one space. -/
def timestampField (elapsed : Nat) : String := padTo6 (toString elapsed) ++ " "

/-- The timestamp text actually written: present only when the detailer
keeps a start instant. -/
def tsOpt (timing : Bool) (elapsed : Nat) : String :=
  if timing then timestampField elapsed else ""

/-- Rust `message.split('\n')` followed by `lines.next()`: the fragment
before the first newline, and the list of the remaining fragments.
Fragments between consecutive separators are empty, matching Rust. -/
def splitNl : List Char → String × List String
  | [] => ("", [])
  | c :: cs =>
    let r := splitNl cs
    if c = '\n' then ("", r.1 :: r.2)
    else (String.mk (c :: r.1.data), r.2)

/-- The indentation loop of `Detailer::log`: `ind` copies of two spaces. -/
def indentStr : Nat → String
  | 0 => ""
  | n + 1 => indentStr n ++ "  "

/-- The text one passing `Detailer::log` call appends to `accumulated`:
with positive indentation the message is split on newlines, the first
fragment gets the optional timestamp, the indentation and a newline, and
every later fragment gets the indentation and a newline; with zero
indentation the raw message is written after the optional timestamp,
followed by one newline. -/
def logText (timing : Bool) (elapsed : Nat) (ind : Nat) (message : String) : String :=
  if 0 < ind then
    (splitNl message.data).2.foldl (fun acc l => acc ++ indentStr ind ++ l ++ "\n")
      (tsOpt timing elapsed ++ indentStr ind ++ (splitNl message.data).1 ++ "\n")
  else
    tsOpt timing elapsed ++ message ++ "\n"

/-- `TimingSetting` of the source. -/
inductive TimingSetting
  | WithTiming
  | WithoutTiming

/-- The `Detailer` state.  `start` records whether the `Option<Instant>`
is present; `currentIndentation` is the value of the shared atomic usize
counter as the detailer reads it. -/
structure Detailer where
  level : LevelFilter
  accumulated : String
  currentIndentation : Nat
  start : Bool

/-- usize arithmetic is modulo 2^64 = 18446744073709551616. -/
def USIZE : Nat := 18446744073709551616

/-- `DetailScopeGuard::new`: `fetch_add(1)` on the shared usize counter. -/
def guardNew (depth : Nat) : Nat := (depth + 1) % USIZE

/-- `Drop for DetailScopeGuard`: `fetch_sub(1)` on the shared usize
counter, wrapping at zero as usize subtraction does. -/
def guardDrop (depth : Nat) : Nat := (depth + (USIZE - 1)) % USIZE

/-- `Detailer::new`: empty buffer, fresh zero counter, start instant
present iff timing is requested. -/
def Detailer.new (level : LevelFilter) (timing : TimingSetting) : Detailer :=
  { level := level
    accumulated := ""
    currentIndentation := 0
    start := match timing with
      | .WithTiming => true
      | .WithoutTiming => false }

/-- `Detailer::peek`. -/
def Detailer.peek (d : Detailer) : String := d.accumulated

/-- `Detailer::reset`: clears the buffer; restarting the timer leaves the
presence of `start` unchanged (elapsed readings are external inputs
here). -/
def Detailer.reset (d : Detailer) : Detailer := { d with accumulated := "" }

/-- `Detailer::log`. -/
def Detailer.log (d : Detailer) (elapsed : Nat) (lv : Level) (message : String) : Detailer :=
  if levelPasses lv d.level then
    { d with accumulated :=
        d.accumulated ++ logText d.start elapsed d.currentIndentation message }
  else d

/-- The Unicode White_Space property, as Rust `char::is_whitespace`
tests it: true exactly for the code points with White_Space=Yes
(U+0009..U+000D, U+0020, U+0085, U+00A0, U+1680, U+2000..U+200A,
U+2028, U+2029, U+202F, U+205F, U+3000). -/
def isRustWhitespace (c : Char) : Bool :=
  c.toNat = 0x09 || c.toNat = 0x0A || c.toNat = 0x0B || c.toNat = 0x0C || c.toNat = 0x0D
    || c.toNat = 0x20 || c.toNat = 0x85 || c.toNat = 0xA0 || c.toNat = 0x1680
    || (0x2000 ≤ c.toNat && c.toNat ≤ 0x200A)
    || c.toNat = 0x2028 || c.toNat = 0x2029 || c.toNat = 0x202F || c.toNat = 0x205F
    || c.toNat = 0x3000

/-- Rust `str::trim_end`: remove trailing characters having the Unicode
White_Space property. -/
def trimEnd (s : String) : String :=
  String.mk ((s.data.reverse.dropWhile isRustWhitespace).reverse)

/-- `Detailer::flush`: trim trailing whitespace; emit the trimmed text at
`level.to_level().unwrap_or(Info)` iff it is non-empty; then reset.  The
emission to the sink is returned as the second component. -/
def Detailer.flush (d : Detailer) : Detailer × Option (Level × String) :=
  let toFlush := trimEnd d.accumulated
  (d.reset,
    if toFlush.data.isEmpty then none else some (d.level.toLevel.getD Level.Info, toFlush))

/-- `Detailer::scope`: log the scope name at `level.to_level()` when that
is present, then create the guard, which increments the shared counter. -/
def Detailer.scope (d : Detailer) (elapsed : Nat) (scopeName : String) : Detailer :=
  let d1 := match d.level.toLevel with
    | some lv => d.log elapsed lv scopeName
    | none => d
  { d1 with currentIndentation := guardNew d1.currentIndentation }

/-- Dropping the scope guard, as seen by the detailer sharing the
counter. -/
def Detailer.dropGuard (d : Detailer) : Detailer :=
  { d with currentIndentation := guardDrop d.currentIndentation }

/-- Counter operations performed by guard creation and guard release. -/
inductive ScopeOp
  | enter
  | release
deriving DecidableEq, Repr

/-- One counter operation. -/
def applyOp (depth : Nat) : ScopeOp → Nat
  | .enter => guardNew depth
  | .release => guardDrop depth

/-- A sequence of counter operations. -/
def runOps (depth : Nat) (ops : List ScopeOp) : Nat := ops.foldl applyOp depth

/-- Properly nested enter/release sequences: each created guard is
released exactly once, releases nesting as RAII guarantees. -/
inductive Nested : List ScopeOp → Prop
  | nil : Nested []
  | wrap {l} : Nested l → Nested (ScopeOp.enter :: l ++ [ScopeOp.release])
  | seq {l1 l2} : Nested l1 → Nested l2 → Nested (l1 ++ l2)

/-- One call a caller can make on a detailer, paired with the elapsed
reading the clock would supply at that call. -/
inductive TraceCall
  | logCall (lv : Level) (message : String)
  | scopeCall (message : String)
  | dropCall
  | resetCall

/-- Perform one call. -/
def Detailer.step (d : Detailer) : TraceCall × Nat → Detailer
  | (.logCall lv m, e) => d.log e lv m
  | (.scopeCall m, e) => d.scope e m
  | (.dropCall, _) => d.dropGuard
  | (.resetCall, _) => d.reset

/-- Perform a sequence of calls. -/
def Detailer.run (d : Detailer) (calls : List (TraceCall × Nat)) : Detailer :=
  calls.foldl Detailer.step d

/-- The text appended for the fragments after the first: each with the
indentation, the fragment, and a newline. -/
def restText (ind : Nat) : List String → String
  | [] => ""
  | l :: ls => indentStr ind ++ l ++ "\n" ++ restText ind ls

/-- A buffer ending with a complete line: empty, or ending in a newline. -/
def endsComplete (s : String) : Prop := s = "" ∨ ∃ t, s = t ++ "\n"

/-- A concrete detailer state at depth 1, timing disabled. -/
def depth1Detailer : Detailer :=
  { level := LevelFilter.Info, accumulated := "", currentIndentation := 1, start := false }

/-- A concrete detailer state at depth 0, timing disabled. -/
def depth0Detailer : Detailer :=
  { level := LevelFilter.Info, accumulated := "", currentIndentation := 0, start := false }

/-- The end-to-end scenario of the spec, with elapsed readings 10, 20,
30, 40 at the four logging points: Info threshold and timing enabled,
log "start", open the scope "work", log "step one", drop the guard, log
"done". -/
def scenario : Detailer :=
  (((((Detailer.new LevelFilter.Info TimingSetting.WithTiming).log 10 Level.Info
    "start").scope 20 "work").log 30 Level.Info "step one").dropGuard).log 40 Level.Info "done"

example : splitNl "a\nb".data = ("a", ["b"]) := by decide
example : splitNl "".data = ("", []) := by decide
example : splitNl "a\n".data = ("a", [""]) := by decide
example : timestampField 10 = "10     " := by decide
example : logText true 7 1 "x" = "7      " ++ "  " ++ "x" ++ "\n" := by decide
example : trimEnd "a\x0C\n" = "a" := by decide
example : trimEnd "a  " = "a" := by decide
example : trimEnd "\x0C\n" = "" := by decide

theorem foldl_indent_restText (ind : Nat) (ls : List String) : ∀ acc : String,
    ls.foldl (fun a l => a ++ indentStr ind ++ l ++ "\n") acc = acc ++ restText ind ls := by
  induction ls with
  | nil => intro acc; simp [restText]
  | cons l ls ih =>
    intro acc
    rw [List.foldl_cons, ih]
    simp [restText, String.append_assoc]

theorem logText_pos (timing : Bool) (e : Nat) {ind : Nat} (h : 0 < ind) (m : String) :
    logText timing e ind m =
      tsOpt timing e ++ indentStr ind ++ (splitNl m.data).1 ++ "\n"
        ++ restText ind (splitNl m.data).2 := by
  simp only [logText, if_pos h, foldl_indent_restText]

theorem logText_zero (timing : Bool) (e : Nat) (m : String) :
    logText timing e 0 m = tsOpt timing e ++ m ++ "\n" := by
  unfold logText
  rfl

theorem restText_ends (ind : Nat) (ls : List String) (t : String) :
    ∃ u, t ++ "\n" ++ restText ind ls = u ++ "\n" := by
  induction ls generalizing t with
  | nil => exact ⟨t, by simp [restText]⟩
  | cons l ls ih =>
    rcases ih (t ++ "\n" ++ indentStr ind ++ l) with ⟨u, hu⟩
    refine ⟨u, ?_⟩
    rw [← hu]
    simp [restText, String.append_assoc]

theorem logText_ends (timing : Bool) (e ind : Nat) (m : String) :
    ∃ u, logText timing e ind m = u ++ "\n" := by
  rcases Nat.eq_zero_or_pos ind with h | h
  · subst h
    exact ⟨tsOpt timing e ++ m, by rw [logText_zero]⟩
  · rw [logText_pos timing e h m]
    rcases restText_ends ind (splitNl m.data).2
        (tsOpt timing e ++ indentStr ind ++ (splitNl m.data).1) with ⟨u, hu⟩
    exact ⟨u, by rw [← hu]⟩

theorem log_accumulated_pass (d : Detailer) (e : Nat) (lv : Level) (m : String)
    (h : levelPasses lv d.level = true) :
    (d.log e lv m).accumulated =
      d.accumulated ++ logText d.start e d.currentIndentation m := by
  simp [Detailer.log, h]

theorem log_of_not_pass (d : Detailer) (e : Nat) (lv : Level) (m : String)
    (h : ¬ levelPasses lv d.level = true) : d.log e lv m = d := by
  simp [Detailer.log, h]

theorem log_accumulated_grows (d : Detailer) (e : Nat) (lv : Level) (m : String)
    (h : levelPasses lv d.level = true) :
    d.accumulated.length < (d.log e lv m).accumulated.length := by
  rw [log_accumulated_pass d e lv m h, String.length_append]
  rcases logText_ends d.start e d.currentIndentation m with ⟨u, hu⟩
  rw [hu, String.length_append]
  have h1 : ("\n" : String).length = 1 := rfl
  omega

/-- C1: `log(S, m)` mutates the buffer iff S passes the threshold, where S
passes iff its rank is at most the threshold's rank in the ordering
Off(0) < Error(1) < Warn(2) < Info(3) < Debug(4) < Trace(5); with
threshold Off, `log` never mutates the buffer. -/
theorem c1_filtering (d : Detailer) (e : Nat) (S : Level) (m : String) :
    ((d.log e S m).accumulated ≠ d.accumulated ↔ S.toNat ≤ d.level.toNat)
    ∧ (d.level = LevelFilter.Off → (d.log e S m).accumulated = d.accumulated) := by
  have hiff : (d.log e S m).accumulated ≠ d.accumulated ↔ levelPasses S d.level = true := by
    constructor
    · intro hne
      by_contra hpass
      rw [log_of_not_pass d e S m hpass] at hne
      exact hne rfl
    · intro hpass
      have := log_accumulated_grows d e S m hpass
      intro heq
      rw [heq] at this
      omega
  constructor
  · simpa [levelPasses] using hiff
  · intro hoff
    by_contra hne
    have := hiff.mp hne
    rw [hoff] at this
    simp [levelPasses, Level.toNat, LevelFilter.toNat] at this
    cases S <;> simp [Level.toNat] at this


/-- Witness for C1 at a concrete disabled detailer and message. -/
theorem c1_filtering_witness :
    ((Detailer.new LevelFilter.Off TimingSetting.WithoutTiming).log 0 Level.Error "x").accumulated
      = (Detailer.new LevelFilter.Off TimingSetting.WithoutTiming).accumulated :=
  (c1_filtering (Detailer.new LevelFilter.Off TimingSetting.WithoutTiming) 0 Level.Error "x").2 rfl

/-- C4: flush trims trailing whitespace, emits iff the trimmed text is
non-empty, at the threshold's concrete level or Info when there is none,
then resets; a second flush with no intervening log emits nothing. -/
theorem c4_flush (d : Detailer) :
    ((d.flush).2 = if (trimEnd d.accumulated).data.isEmpty then none
      else some (d.level.toLevel.getD Level.Info, trimEnd d.accumulated))
    ∧ (d.flush).1.accumulated = ""
    ∧ ((d.flush).1.flush).2 = none
    ∧ ((d.flush).1.flush).1.accumulated = "" := by
  exact ⟨rfl, rfl, rfl, rfl⟩

/-- C6 counterexample: with threshold Off, `scope` appends nothing, yet the
guard's depth increment does happen — depth goes from 0 to 1, refuting
"the increment does not happen in the fully-disabled case". -/
theorem c6_counterexample :
    ((Detailer.new LevelFilter.Off TimingSetting.WithoutTiming).scope 0 "work").accumulated = ""
    ∧ ((Detailer.new LevelFilter.Off TimingSetting.WithoutTiming).scope 0 "work").currentIndentation
        = 1 := by
  constructor
  · rfl
  · show guardNew 0 = 1
    decide

/-- C6 (amended): with threshold Off, `scope` appends no scope line and
still returns a guard; the guard's depth increment is unconditional — it
happens in every case, the fully-disabled one included. -/
theorem c6_scope_disabled (d : Detailer) (e : Nat) (n : String) :
    (d.scope e n).currentIndentation = guardNew d.currentIndentation
    ∧ (d.level = LevelFilter.Off → (d.scope e n).accumulated = d.accumulated) := by
  constructor
  · unfold Detailer.scope
    cases hl : d.level.toLevel with
    | none => rfl
    | some lv =>
      show guardNew (d.log e lv n).currentIndentation = guardNew d.currentIndentation
      unfold Detailer.log
      split <;> rfl
  · intro hoff
    unfold Detailer.scope
    rw [hoff]
    rfl

/-- Witness for C6 (amended) at a concrete disabled detailer. -/
theorem c6_scope_disabled_witness :
    ((Detailer.new LevelFilter.Off TimingSetting.WithTiming).scope 5 "s").accumulated
      = (Detailer.new LevelFilter.Off TimingSetting.WithTiming).accumulated :=
  (c6_scope_disabled (Detailer.new LevelFilter.Off TimingSetting.WithTiming) 5 "s").2 rfl

/-- C8 counterexample: at elapsed = 1000000 microseconds the decimal
rendering is 7 characters wide, so the timestamp text is 8 characters,
not the claimed 7. -/
theorem c8_counterexample :
    (timestampField 1000000).length = 8 ∧ (timestampField 1000000).length ≠ 7 := by
  decide

/-- C8 (amended): the timestamp text is the decimal rendering of the
elapsed microseconds, left-justified and space-padded to a minimum width
of 6 characters, followed by one space; its length is
max(digits, 6) + 1 — exactly 7 whenever the rendering fits in 6
characters (elapsed below 10^6). -/
theorem c8_timestamp_width (e : Nat) :
    (timestampField e).length = max (toString e).length 6 + 1
    ∧ ((toString e).length ≤ 6 → (timestampField e).length = 7) := by
  have hpad : (padTo6 (toString e)).length = max (toString e).length 6 := by
    simp only [padTo6, String.length_append, String.length_mk, List.length_replicate]
    omega
  have hlen : (timestampField e).length = max (toString e).length 6 + 1 := by
    rw [timestampField, String.length_append, hpad]
    rfl
  exact ⟨hlen, fun h => by rw [hlen]; omega⟩

/-- Witness for C8 (amended) at elapsed = 42. -/
theorem c8_timestamp_width_witness : (timestampField 42).length = 7 :=
  (c8_timestamp_width 42).2 (by decide)

theorem indentStr_data (n : Nat) : (indentStr n).data = List.replicate (2 * n) ' ' := by
  induction n with
  | zero => rfl
  | succ n ih =>
    show (indentStr n ++ "  ").data = _
    rw [String.data_append, ih]
    have h2 : 2 * (n + 1) = 2 * n + 2 := by omega
    rw [h2, List.replicate_add]
    rfl

theorem indentStr_length (n : Nat) : (indentStr n).length = 2 * n := by
  show (indentStr n).data.length = 2 * n
  rw [indentStr_data, List.length_replicate]

/-- C2: a line logged at depth d>0 receives exactly 2*d indentation
characters (all spaces) immediately before its text, after the optional
timestamp on the first line; at depth 0 no indentation characters are
written before the text. -/
theorem c2_indentation (d : Detailer) (e : Nat) (lv : Level) (m : String)
    (hpass : levelPasses lv d.level = true) :
    (indentStr d.currentIndentation).data = List.replicate (2 * d.currentIndentation) ' '
    ∧ (indentStr d.currentIndentation).length = 2 * d.currentIndentation
    ∧ (0 < d.currentIndentation →
        (d.log e lv m).accumulated =
          d.accumulated ++ tsOpt d.start e ++ indentStr d.currentIndentation
            ++ (splitNl m.data).1 ++ "\n" ++ restText d.currentIndentation (splitNl m.data).2)
    ∧ (d.currentIndentation = 0 →
        (d.log e lv m).accumulated = d.accumulated ++ tsOpt d.start e ++ m ++ "\n") := by
  refine ⟨indentStr_data _, indentStr_length _, ?_, ?_⟩
  · intro hpos
    rw [log_accumulated_pass d e lv m hpass, logText_pos d.start e hpos m]
    simp [String.append_assoc]
  · intro h0
    rw [log_accumulated_pass d e lv m hpass, h0, logText_zero]
    simp [String.append_assoc]

/-- Witness for C2 at a concrete detailer of depth 1. -/
theorem c2_indentation_witness :
    (depth1Detailer.log 0 Level.Info "hi").accumulated =
      depth1Detailer.accumulated ++ tsOpt false 0 ++ indentStr 1
        ++ (splitNl "hi".data).1 ++ "\n" ++ restText 1 (splitNl "hi".data).2 :=
  (c2_indentation depth1Detailer 0 Level.Info "hi" (by decide)).2.2.1 (by decide)

/-- C3: at depth 0 the message is written verbatim (never split), after at
most one timestamp, with exactly one trailing newline; at depth d>0 the
message is split on newlines, the first fragment gets the optional
timestamp, the indentation and a newline, and every later fragment gets
the same indentation and a newline but no timestamp. -/
theorem c3_depth_asymmetry (d : Detailer) (e : Nat) (lv : Level) (m : String)
    (hpass : levelPasses lv d.level = true) :
    (d.currentIndentation = 0 →
        (d.log e lv m).accumulated = d.accumulated ++ tsOpt d.start e ++ m ++ "\n")
    ∧ (0 < d.currentIndentation →
        (d.log e lv m).accumulated =
          d.accumulated ++ tsOpt d.start e ++ indentStr d.currentIndentation
            ++ (splitNl m.data).1 ++ "\n"
            ++ restText d.currentIndentation (splitNl m.data).2) := by
  constructor
  · intro h0
    rw [log_accumulated_pass d e lv m hpass, h0, logText_zero]
    simp [String.append_assoc]
  · intro hpos
    rw [log_accumulated_pass d e lv m hpass, logText_pos d.start e hpos m]
    simp [String.append_assoc]

/-- Witness for C3 at depth 0 with a message that contains a newline:
the message is not split. -/
theorem c3_depth_asymmetry_witness :
    (depth0Detailer.log 0 Level.Info "a\nb").accumulated =
      depth0Detailer.accumulated ++ tsOpt false 0 ++ "a\nb" ++ "\n" :=
  (c3_depth_asymmetry depth0Detailer 0 Level.Info "a\nb" (by decide)).1 rfl

/-- C9: every operation leaves the buffer ending with a complete line —
after construct, log, scope, reset or flush, the buffer is empty or its
last character is a newline. -/
theorem c9_complete_lines :
    (∀ lv t, endsComplete (Detailer.new lv t).accumulated)
    ∧ (∀ (d : Detailer) e lv m, endsComplete d.accumulated →
        endsComplete ((d.log e lv m).accumulated))
    ∧ (∀ (d : Detailer) e n, endsComplete d.accumulated →
        endsComplete ((d.scope e n).accumulated))
    ∧ (∀ d : Detailer, endsComplete ((d.reset).accumulated))
    ∧ (∀ d : Detailer, endsComplete (((d.flush).1).accumulated)) := by
  have hlog : ∀ (d : Detailer) e lv m, endsComplete d.accumulated →
      endsComplete ((d.log e lv m).accumulated) := by
    intro d e lv m h
    by_cases hp : levelPasses lv d.level = true
    · rw [log_accumulated_pass d e lv m hp]
      rcases logText_ends d.start e d.currentIndentation m with ⟨u, hu⟩
      exact Or.inr ⟨d.accumulated ++ u, by rw [hu, ← String.append_assoc]⟩
    · rw [log_of_not_pass d e lv m hp]
      exact h
  refine ⟨fun lv t => Or.inl rfl, hlog, ?_, fun d => Or.inl rfl, fun d => Or.inl rfl⟩
  intro d e n h
  show endsComplete
    ((match d.level.toLevel with | some lv => d.log e lv n | none => d).accumulated)
  cases d.level.toLevel with
  | none => exact h
  | some lv => exact hlog d e lv n h

/-- Witness for C9: logging on a concrete detailer with an empty buffer
leaves a buffer ending in a newline. -/
theorem c9_complete_lines_witness :
    endsComplete (((Detailer.new LevelFilter.Info TimingSetting.WithTiming).log 3
      Level.Info "x").accumulated) :=
  c9_complete_lines.2.1 (Detailer.new LevelFilter.Info TimingSetting.WithTiming) 3
    Level.Info "x" (Or.inl rfl)

theorem foldl_applyOp_singleton (d : Nat) (o : ScopeOp) :
    List.foldl applyOp d [o] = applyOp d o := rfl

theorem applyOp_enter (d : Nat) : applyOp d ScopeOp.enter = (d + 1) % USIZE := rfl

theorem applyOp_release (d : Nat) : applyOp d ScopeOp.release = (d + (USIZE - 1)) % USIZE := rfl

theorem nested_runOps {ops : List ScopeOp} (h : Nested ops) :
    ∀ depth : Nat, depth + ops.length < USIZE → runOps depth ops = depth := by
  induction h with
  | nil => intro depth _; rfl
  | @wrap l _ ih =>
    intro depth hlen
    have hl2 : (ScopeOp.enter :: l ++ [ScopeOp.release]).length = l.length + 2 := by simp
    rw [hl2] at hlen
    show List.foldl applyOp depth (ScopeOp.enter :: (l ++ [ScopeOp.release])) = depth
    rw [List.foldl_cons, applyOp_enter]
    have h1 : (depth + 1) % USIZE = depth + 1 := Nat.mod_eq_of_lt (by omega)
    rw [h1, List.foldl_append]
    have h2 : List.foldl applyOp (depth + 1) l = depth + 1 := ih (depth + 1) (by omega)
    rw [h2, foldl_applyOp_singleton, applyOp_release]
    have h3 : depth + 1 + (USIZE - 1) = depth + USIZE := by omega
    rw [h3, Nat.add_mod_right]
    exact Nat.mod_eq_of_lt (by omega)
  | @seq l1 l2 _ _ ih1 ih2 =>
    intro depth hlen
    have hl2 : (l1 ++ l2).length = l1.length + l2.length := by simp
    rw [hl2] at hlen
    show List.foldl applyOp depth (l1 ++ l2) = depth
    rw [List.foldl_append]
    have e1 : List.foldl applyOp depth l1 = depth := ih1 depth (by omega)
    rw [e1]
    exact ih2 depth (by omega)

/-- C5: guard creation increments the shared depth counter by exactly 1
and guard release decrements it by exactly 1 (within usize range); for
every properly nested sequence of enters and releases in which each guard
is released exactly once, the depth after all releases equals the depth
before the first enter. -/
theorem c5_depth_symmetry :
    (∀ depth, depth + 1 < USIZE → applyOp depth ScopeOp.enter = depth + 1)
    ∧ (∀ depth, 0 < depth → depth < USIZE → applyOp depth ScopeOp.release = depth - 1)
    ∧ (∀ (ops : List ScopeOp) (depth : Nat), Nested ops → depth + ops.length < USIZE →
        runOps depth ops = depth) := by
  refine ⟨?_, ?_, fun ops depth h hlen => nested_runOps h depth hlen⟩
  · intro depth h
    show (depth + 1) % USIZE = depth + 1
    exact Nat.mod_eq_of_lt h
  · intro depth h0 hU
    show (depth + (USIZE - 1)) % USIZE = depth - 1
    have h3 : depth + (USIZE - 1) = (depth - 1) + USIZE := by omega
    rw [h3, Nat.add_mod_right]
    exact Nat.mod_eq_of_lt (by omega)

/-- Witness for C5: enter, enter, release, release from depth 0 returns
the depth to 0. -/
theorem c5_depth_symmetry_witness :
    runOps 0 [ScopeOp.enter, ScopeOp.enter, ScopeOp.release, ScopeOp.release] = 0 :=
  c5_depth_symmetry.2.2 [ScopeOp.enter, ScopeOp.enter, ScopeOp.release, ScopeOp.release] 0
    (Nested.wrap (Nested.wrap Nested.nil)) (by decide)

/-- C7 counterexample: in the end-to-end scenario the record's second
line is "work" logged at depth 0 — the guard increments the counter only
after the scope name is logged — so after its 7-character timestamp
field there is no 2-space indentation, refuting the claimed indents of
2 for line 2 (and 4 for line 3). -/
theorem c7_counterexample :
    (scenario.flush).2 =
      some (Level.Info, "10     start\n20     work\n30       step one\n40     done")
    ∧ (splitNl "10     start\n20     work\n30       step one\n40     done".data).2 =
        ["20     work", "30       step one", "40     done"]
    ∧ List.take 2 (List.drop 7 "20     work".data) ≠ [' ', ' '] := by
  decide

/-- C7 (amended): the scenario's flush emits exactly one Info record
whose trimmed text has 4 lines; line 2 ("work", logged at depth 0 before
the guard increments the counter) has no indentation after its
7-character timestamp field, line 3 ("step one", logged at depth 1) has
exactly 2 spaces there, and lines 1 and 4 have none. -/
theorem c7_scenario :
    (scenario.flush).2 =
      some (Level.Info, "10     start\n20     work\n30       step one\n40     done")
    ∧ splitNl "10     start\n20     work\n30       step one\n40     done".data =
        ("10     start", ["20     work", "30       step one", "40     done"])
    ∧ List.take 7 "10     start".data = (timestampField 10).data
    ∧ List.take 7 "20     work".data = (timestampField 20).data
    ∧ List.take 7 "30       step one".data = (timestampField 30).data
    ∧ List.take 7 "40     done".data = (timestampField 40).data
    ∧ List.drop 7 "10     start".data = "start".data
    ∧ List.drop 7 "20     work".data = "work".data
    ∧ List.drop 7 "30       step one".data = "  step one".data
    ∧ List.drop 7 "40     done".data = "done".data := by
  decide

theorem logText_no_timing (e1 e2 ind : Nat) (m : String) :
    logText false e1 ind m = logText false e2 ind m := by
  unfold logText tsOpt
  simp

theorem log_no_timing (d : Detailer) (hstart : d.start = false) (e1 e2 : Nat)
    (lv : Level) (m : String) : d.log e1 lv m = d.log e2 lv m := by
  unfold Detailer.log
  rw [hstart, logText_no_timing e1 e2 d.currentIndentation m]

theorem log_start (d : Detailer) (e : Nat) (lv : Level) (m : String) :
    (d.log e lv m).start = d.start := by
  unfold Detailer.log
  split <;> rfl

theorem scope_start (d : Detailer) (e : Nat) (m : String) :
    (d.scope e m).start = d.start := by
  unfold Detailer.scope
  cases hl : d.level.toLevel with
  | none => rfl
  | some lv =>
    dsimp only
    exact log_start d e lv m

theorem dropGuard_start (d : Detailer) : (d.dropGuard).start = d.start := by
  unfold Detailer.dropGuard
  rfl

theorem step_start (d : Detailer) (p : TraceCall × Nat) : (d.step p).start = d.start := by
  obtain ⟨c, e⟩ := p
  cases c with
  | logCall lv m => exact log_start d e lv m
  | scopeCall m => exact scope_start d e m
  | dropCall => exact dropGuard_start d
  | resetCall => rfl

theorem step_no_timing (d : Detailer) (hstart : d.start = false) (c : TraceCall) (e1 e2 : Nat) :
    d.step (c, e1) = d.step (c, e2) := by
  cases c with
  | logCall lv m => exact log_no_timing d hstart e1 e2 lv m
  | scopeCall m =>
    show d.scope e1 m = d.scope e2 m
    unfold Detailer.scope
    cases hl : d.level.toLevel with
    | none => rfl
    | some lv =>
      dsimp only
      rw [log_no_timing d hstart e1 e2 lv m]
  | dropCall => rfl
  | resetCall => rfl

theorem run_no_timing : ∀ (cs1 cs2 : List (TraceCall × Nat)) (d : Detailer),
    d.start = false → cs1.map Prod.fst = cs2.map Prod.fst → d.run cs1 = d.run cs2 := by
  intro cs1
  induction cs1 with
  | nil =>
    intro cs2 d _ hmap
    cases cs2 with
    | nil => rfl
    | cons c cs => simp at hmap
  | cons c1 cs1 ih =>
    intro cs2 d hstart hmap
    cases cs2 with
    | nil => simp at hmap
    | cons c2 cs2 =>
      simp only [List.map_cons, List.cons.injEq] at hmap
      obtain ⟨hc, hcs⟩ := hmap
      show Detailer.run (d.step c1) cs1 = Detailer.run (d.step c2) cs2
      obtain ⟨cc1, e1⟩ := c1
      obtain ⟨cc2, e2⟩ := c2
      have hcc : cc1 = cc2 := hc
      subst hcc
      rw [step_no_timing d hstart cc1 e1 e2]
      refine ih cs2 (d.step (cc1, e2)) ?_ hcs
      rw [step_start]
      exact hstart

/-- C10: for a detailer constructed with timing disabled, the buffer
after any sequence of calls is a deterministic function of the calls
alone: two runs of the same call sequence under different clock readings
produce identical buffers, because no timestamp is ever written. -/
theorem c10_no_timing_deterministic (lvl : LevelFilter) (cs1 cs2 : List (TraceCall × Nat))
    (h : cs1.map Prod.fst = cs2.map Prod.fst) :
    ((Detailer.new lvl TimingSetting.WithoutTiming).run cs1).accumulated =
      ((Detailer.new lvl TimingSetting.WithoutTiming).run cs2).accumulated := by
  rw [run_no_timing cs1 cs2 (Detailer.new lvl TimingSetting.WithoutTiming) rfl h]

/-- Witness for C10: the same log call under clock readings 5 and 99
leaves the same buffer. -/
theorem c10_no_timing_deterministic_witness :
    ((Detailer.new LevelFilter.Info TimingSetting.WithoutTiming).run
        [(TraceCall.logCall Level.Info "a", 5)]).accumulated =
      ((Detailer.new LevelFilter.Info TimingSetting.WithoutTiming).run
        [(TraceCall.logCall Level.Info "a", 99)]).accumulated :=
  c10_no_timing_deterministic LevelFilter.Info
    [(TraceCall.logCall Level.Info "a", 5)] [(TraceCall.logCall Level.Info "a", 99)] rfl
